import Mathlib

/-!
Verification development for the SID (Semantic Interaction Description)
browser runtime: attribute parser, element registry, interaction executor,
context reader and the legacy operation tracker, embedded shallowly.
JavaScript strings are Lean `String`s (lists of characters); the JS event
loop's timers and promise resolutions are explicit state transitions.
-/

namespace SID

/- ### JavaScript string primitives

`jsTrim`, `jsToLower` and `jsSplitComma` model `String.prototype.trim`,
`toLowerCase` and `split(',')` on the ASCII inputs the runtime handles
(the attribute grammar is ASCII; `toLowerCase` is modelled on ASCII). -/

def jsSpace (c : Char) : Bool :=
  c = ' ' || c = '\t' || c = '\n' || c = '\r' || c = '\x0b' || c = '\x0c'

def jsTrim (s : String) : String :=
  ⟨((s.data.dropWhile jsSpace).reverse.dropWhile jsSpace).reverse⟩

def jsToLower (s : String) : String :=
  ⟨s.data.map Char.toLower⟩

def splitCommaAux : List Char → List Char → List (List Char)
  | [], acc => [acc.reverse]
  | c :: cs, acc =>
    if c = ',' then acc.reverse :: splitCommaAux cs []
    else splitCommaAux cs (c :: acc)

def jsSplitComma (s : String) : List String :=
  (splitCommaAux s.data []).map fun l => ⟨l⟩

/- Decimal rendering of a JS number in a template literal (an integer,
as in `op-3` or `30000ms`). -/

def natDigits (n : Nat) : List Char :=
  if h : n < 10 then [Char.ofNat (48 + n)]
  else natDigits (n / 10) ++ [Char.ofNat (48 + n % 10)]
decreasing_by exact Nat.div_lt_self (by omega) (by omega)

/- Fuel-based equivalent of `natDigits` that reduces structurally, so
concrete template literals evaluate inside `decide`/`rfl` proofs. -/
def natToStringAux : Nat → Nat → List Char → List Char
  | 0, _, acc => acc
  | fuel + 1, n, acc =>
    if n < 10 then Char.ofNat (48 + n) :: acc
    else natToStringAux fuel (n / 10) (Char.ofNat (48 + n % 10) :: acc)

def natToString (n : Nat) : String := ⟨natToStringAux (n + 1) n []⟩

theorem natToStringAux_eq_natDigits (fuel : Nat) : ∀ n acc, n < fuel →
    natToStringAux fuel n acc = natDigits n ++ acc := by
  induction fuel with
  | zero => intro n acc h; omega
  | succ fuel ih =>
    intro n acc h
    rw [natToStringAux, natDigits]
    by_cases h10 : n < 10
    · rw [if_pos h10, dif_pos h10]
      rfl
    · rw [if_neg h10, dif_neg h10]
      rw [ih (n / 10) _ (by
        have := Nat.div_lt_self (n := n) (by omega) (by omega : 1 < 10)
        omega)]
      simp

theorem natToString_eq (n : Nat) : natToString n = ⟨natDigits n⟩ := by
  rw [natToString, natToStringAux_eq_natDigits (n + 1) n [] (by omega)]
  simp

def digitsVal (l : List Char) : Nat :=
  l.foldl (fun a c => 10 * a + (c.toNat - 48)) 0

theorem digitsVal_natDigits (n : Nat) : digitsVal (natDigits n) = n := by
  induction n using Nat.strong_induction_on with
  | _ n ih =>
    rw [natDigits]
    split
    · rename_i h
      interval_cases n <;> decide
    · rename_i h
      have hrec := ih (n / 10) (Nat.div_lt_self (by omega) (by omega))
      have hm : n % 10 < 10 := Nat.mod_lt _ (by omega)
      simp only [digitsVal, List.foldl_append, List.foldl_cons, List.foldl_nil] at hrec ⊢
      rw [hrec]
      have hc : (Char.ofNat (48 + n % 10)).toNat - 48 = n % 10 := by
        interval_cases h10 : n % 10 <;> decide
      rw [hc]
      omega

theorem natDigits_inj {a b : Nat} (h : natDigits a = natDigits b) : a = b := by
  have ha := digitsVal_natDigits a
  rw [h, digitsVal_natDigits] at ha
  omega

theorem natToString_inj {a b : Nat} (h : natToString a = natToString b) : a = b := by
  rw [natToString_eq, natToString_eq] at h
  exact natDigits_inj (congrArg String.data h)

/- ### Association-list maps

JS `Map` objects (`ElementRegistry.elements`, `InteractionExecutor.
pendingOperations`, `OperationTracker.operations`) are embedded as
association lists: `insertP` is `Map.set` (replace in place), `eraseP` is
`Map.delete`, `lookupP` is `Map.get`. -/

def lookupP {κ α : Type} [DecidableEq κ] : List (κ × α) → κ → Option α
  | [], _ => Option.none
  | (k', v) :: rest, k => if k' = k then some v else lookupP rest k

def insertP {κ α : Type} [DecidableEq κ] : List (κ × α) → κ → α → List (κ × α)
  | [], k, v => [(k, v)]
  | (k', v') :: rest, k, v =>
    if k' = k then (k, v) :: rest else (k', v') :: insertP rest k v

def eraseP {κ α : Type} [DecidableEq κ] : List (κ × α) → κ → List (κ × α)
  | [], _ => []
  | (k', v) :: rest, k =>
    if k' = k then eraseP rest k else (k', v) :: eraseP rest k

theorem lookupP_insertP_self {κ α : Type} [DecidableEq κ] (l : List (κ × α)) (k : κ) (v : α) :
    lookupP (insertP l k v) k = some v := by
  induction l with
  | nil => simp [insertP, lookupP]
  | cons p rest ih =>
    obtain ⟨k', v'⟩ := p
    by_cases h : k' = k <;> simp [insertP, lookupP, h, ih]

theorem lookupP_eraseP_self {κ α : Type} [DecidableEq κ] (l : List (κ × α)) (k : κ) :
    lookupP (eraseP l k) k = Option.none := by
  induction l with
  | nil => simp [eraseP, lookupP]
  | cons p rest ih =>
    obtain ⟨k', v'⟩ := p
    by_cases h : k' = k <;> simp [eraseP, lookupP, h, ih]

theorem eraseP_insertP {κ α : Type} [DecidableEq κ] (l : List (κ × α)) (k : κ) (v : α) :
    eraseP (insertP l k v) k = eraseP l k := by
  induction l with
  | nil => simp [insertP, eraseP]
  | cons p rest ih =>
    obtain ⟨k', v'⟩ := p
    by_cases h : k' = k <;> simp [insertP, eraseP, h, ih]

theorem mem_insertP {κ α : Type} [DecidableEq κ] {l : List (κ × α)} {k : κ} {v : α} {p : κ × α}
    (h : p ∈ insertP l k v) : p = (k, v) ∨ p ∈ l := by
  induction l with
  | nil => simpa [insertP] using h
  | cons q rest ih =>
    obtain ⟨k', v'⟩ := q
    by_cases hk : k' = k
    · simp only [insertP, if_pos hk, List.mem_cons] at h
      rcases h with h | h
      · exact Or.inl h
      · exact Or.inr (List.mem_cons_of_mem _ h)
    · simp only [insertP, if_neg hk, List.mem_cons] at h
      rcases h with h | h
      · exact Or.inr (by simp [h])
      · rcases ih h with h' | h'
        · exact Or.inl h'
        · exact Or.inr (List.mem_cons_of_mem _ h')

theorem mem_eraseP {κ α : Type} [DecidableEq κ] {l : List (κ × α)} {k : κ} {p : κ × α}
    (h : p ∈ eraseP l k) : p ∈ l := by
  induction l with
  | nil => simp [eraseP] at h
  | cons q rest ih =>
    obtain ⟨k', v'⟩ := q
    by_cases hk : k' = k
    · simp only [eraseP, if_pos hk] at h
      exact List.mem_cons_of_mem _ (ih h)
    · simp only [eraseP, if_neg hk, List.mem_cons] at h
      rcases h with h | h
      · simp [h]
      · exact List.mem_cons_of_mem _ (ih h)

/-! ### Core type definitions (packages/types/src/index.ts) -/

/-- Action types supported by SID elements (`SIDActionType`). -/
inductive SIDActionType
  | click | fill | select | check | hover | upload
deriving DecidableEq

/-- Input data types for fill/select actions (`SIDInputDataType`). -/
inductive SIDInputDataType
  | text | number | date | email | password | file
deriving DecidableEq

/-- Operation tracking types (`SIDTrackingType`). -/
inductive SIDTrackingType
  | async | navigation | external | none
deriving DecidableEq

/-- Interaction result status values (`SIDInteractionStatus`). -/
inductive SIDInteractionStatus
  | completed | error | timeout | navigation | external
deriving DecidableEq

mutual

/-- JSON values, for the two host `JSON.parse` consumers
(`data-sid-human-input` and the context script).  Arrays and object field
lists are their own inductives so equality is decidable by derivation. -/
inductive JsonValue
  | null
  | bool (b : Bool)
  | num (n : Int)
  | str (s : String)
  | arr (xs : JsonArray)
  | obj (fields : JsonFields)
deriving DecidableEq

inductive JsonArray
  | nil
  | cons (head : JsonValue) (tail : JsonArray)
deriving DecidableEq

inductive JsonFields
  | nil
  | cons (key : String) (val : JsonValue) (tail : JsonFields)
deriving DecidableEq

end

/-- Input configuration for actions requiring values (`InputDefinition`). -/
structure InputDefinition where
  dataType : SIDInputDataType
  required : Bool
  options : Option (List String) := Option.none
deriving DecidableEq

/-- Defines an action that can be performed on an element (`ActionDefinition`). -/
structure ActionDefinition where
  type : SIDActionType
  input : Option InputDefinition
  tracked : Bool
  description : String
deriving DecidableEq

/-- An interactive element with SID metadata (`SIDElement`).  The optional
`state` field of the source interface is never populated by the runtime and
is omitted. `humanInput` keeps the raw JSON object that was validated. -/
structure SIDElement where
  id : String
  selector : String
  description : String
  descriptionLong : Option String
  actions : List ActionDefinition
  disabled : Bool
  disabledDescription : Option String
  humanInput : Option JsonValue
deriving DecidableEq

/-- Effects produced by a completed operation (`OperationEffects`). -/
structure OperationEffects where
  navigatedTo : Option String := Option.none
  elementsAdded : Option (List String) := Option.none
  elementsRemoved : Option (List String) := Option.none
deriving DecidableEq

/-- Result of an interaction attempt (`InteractionResult`). -/
structure InteractionResult where
  success : Bool
  status : SIDInteractionStatus
  error : Option String := Option.none
  message : Option String := Option.none
  effects : Option OperationEffects := Option.none
deriving DecidableEq

/-- Status allowed in a `CompletionResult`: `"completed" | "error"`. -/
inductive CompletionStatus
  | completed | error
deriving DecidableEq

/-- Injection of a completion status into the interaction status union:
in the source both are string literal types and the value is passed through. -/
def CompletionStatus.toInteractionStatus : CompletionStatus → SIDInteractionStatus
  | .completed => .completed
  | .error => .error

/-- Result passed to `SID.complete()` by app code (`CompletionResult`). -/
structure CompletionResult where
  status : CompletionStatus
  message : Option String := Option.none
  effects : Option OperationEffects := Option.none
deriving DecidableEq

/-- Value payload of an `InteractionAction` (`string | number | boolean | File`). -/
inductive InteractionValue
  | str (s : String)
  | num (n : Int)
  | bool (b : Bool)
  | file (name : String)
deriving DecidableEq

/-- Action to perform on an element (`InteractionAction`). -/
structure InteractionAction where
  type : SIDActionType
  value : Option InteractionValue := Option.none
deriving DecidableEq

/-! ### DOM model

A `DomNode` carries its attribute map plus the concrete-kind information the
executor's `instanceof`/`type` checks and native dispatch read and write.
A `Document` is a node store together with the results of CSS selector
resolution (`querySelector` on a selector string), kept abstract as data. -/

/-- Concrete element kind, as seen by `instanceof` checks:
`input` (with its `type` property), `textarea`, `select`, anything else. -/
inductive ElementKind
  | input (inputType : String)
  | textarea
  | selectEl
  | other
deriving DecidableEq

/-- A DOM element: attributes, concrete kind, mutable value/checked/files
state, and a log of dispatched events (in dispatch order). -/
structure DomNode where
  attrs : List (String × String)
  kind : ElementKind
  value : String := ""
  checked : Bool := false
  files : List String := []
  events : List String := []
deriving DecidableEq

/-- `getAttribute`: `some` when the attribute is present (possibly empty),
`none` when absent. -/
def getAttr (el : DomNode) (name : String) : Option String :=
  lookupP el.attrs name

/-- An attribute read through a JS truthiness test (`attr || fallback`,
`if (!attr)`): an absent attribute and the empty string are both falsy. -/
def getAttrT (el : DomNode) (name : String) : Option String :=
  match getAttr el name with
  | some s => if s = "" then Option.none else some s
  | Option.none => Option.none

/-- The document: identified nodes plus the selector-resolution relation
(`querySelector` results), abstract data standing for the CSS engine. -/
structure Document where
  nodes : List (Nat × DomNode)
  query : List (String × Nat)
deriving DecidableEq

/-- `document.querySelector(sel)`: the first node the selector resolves to. -/
def Document.querySelector (doc : Document) (sel : String) : Option (Nat × DomNode) :=
  match lookupP doc.query sel with
  | some nid =>
    match lookupP doc.nodes nid with
    | some node => some (nid, node)
    | Option.none => Option.none
  | Option.none => Option.none

/-- Replace the node stored under `nid` (a DOM mutation by native dispatch). -/
def Document.updateNode (doc : Document) (nid : Nat) (node : DomNode) : Document :=
  { doc with
    nodes := doc.nodes.map fun p => if p.1 = nid then (nid, node) else p }

/-! ### Attribute parser (packages/runtime/src/attribute-parser.ts) -/

/-- All parsed `data-sid-*` attributes from a DOM element (`ParsedAttributes`). -/
structure ParsedAttributes where
  id : String
  description : String
  descriptionLong : Option String
  action : SIDActionType
  input : Option InputDefinition
  options : Option (List String)
  tracking : SIDTrackingType
  destination : Option String
  humanInput : Option JsonValue
  disabled : Bool
  disabledDescription : Option String
deriving DecidableEq

/-- `VALID_ACTION_TYPES.includes(value)`, with the matched enum member. -/
def toActionType : String → Option SIDActionType
  | "click" => some .click
  | "fill" => some .fill
  | "select" => some .select
  | "check" => some .check
  | "hover" => some .hover
  | "upload" => some .upload
  | _ => Option.none

/-- `VALID_INPUT_DATA_TYPES.includes(value)`, with the matched enum member. -/
def toInputDataType : String → Option SIDInputDataType
  | "text" => some .text
  | "number" => some .number
  | "date" => some .date
  | "email" => some .email
  | "password" => some .password
  | "file" => some .file
  | _ => Option.none

/-- `VALID_TRACKING_TYPES.includes(value)`, with the matched enum member. -/
def toTrackingType : String → Option SIDTrackingType
  | "async" => some .async
  | "navigation" => some .navigation
  | "external" => some .external
  | "none" => some .none
  | _ => Option.none

/-- The canonical attribute string of an input data type. -/
def dataTypeStr : SIDInputDataType → String
  | .text => "text"
  | .number => "number"
  | .date => "date"
  | .email => "email"
  | .password => "password"
  | .file => "file"

/-- `parseInputAttribute`: parses `"<dataType>,<required|optional>"`.
Returns `none` (for JS `null`) on any deviation from the two-part shape. -/
def parseInputAttribute (value : String) : Option InputDefinition :=
  if value = "" then Option.none
  else
    let trimmedValue := jsTrim value
    match jsSplitComma trimmedValue with
    | [p1, p2] =>
      let dataTypePart := jsToLower (jsTrim p1)
      let requiredPart := jsToLower (jsTrim p2)
      match toInputDataType dataTypePart with
      | some dt =>
        if requiredPart = "required" then
          some { dataType := dt, required := true }
        else if requiredPart = "optional" then
          some { dataType := dt, required := false }
        else Option.none
      | Option.none => Option.none
    | _ => Option.none

/-- The `typeof v === 'object' && v !== null` test: true of objects and
arrays, false of null and primitives. -/
def JsonValue.isObjectLike : JsonValue → Bool
  | .obj _ => true
  | .arr _ => true
  | _ => false

def jsonLookup : JsonFields → String → Option JsonValue
  | .nil, _ => Option.none
  | .cons k v rest, name => if k = name then some v else jsonLookup rest name

/-- `parseHumanInputAttribute`: JSON-decodes the value and checks for a
string `reason` and an object-typed `schema`; `jsonParse` stands for the
host `JSON.parse` (`none` models a thrown SyntaxError). -/
def parseHumanInputAttribute (jsonParse : String → Option JsonValue)
    (value : String) : Option JsonValue :=
  if value = "" then Option.none
  else
    let trimmedValue := jsTrim value
    if trimmedValue = "" then Option.none
    else
      match jsonParse trimmedValue with
      | Option.none => Option.none
      | some parsed =>
        match parsed with
        | .obj fields =>
          match jsonLookup fields "reason", jsonLookup fields "schema" with
          | some (.str _), some sch =>
            if sch.isObjectLike then some parsed else Option.none
          | _, _ => Option.none
        | _ => Option.none

/-- `parseOptionsAttribute`: comma-separated, trimmed, empties dropped,
empty result treated as absent. -/
def parseOptionsAttribute (value : Option String) : Option (List String) :=
  match value with
  | Option.none => Option.none
  | some v =>
    if v = "" then Option.none
    else
      let trimmedValue := jsTrim v
      if trimmedValue = "" then Option.none
      else
        let options := ((jsSplitComma trimmedValue).map jsTrim).filter
          fun opt => opt.length > 0
        if options.length > 0 then some options else Option.none

/-- `parseAttributes`: extracts every `data-sid-*` attribute of one node;
`none` iff the node carries no (truthy) `data-sid`.  Diagnostic emission
(`console.warn`) is a side effect outside the model. -/
def parseAttributes (jsonParse : String → Option JsonValue)
    (el : DomNode) : Option ParsedAttributes :=
  match getAttrT el "data-sid" with
  | Option.none => Option.none
  | some id =>
    let description := (getAttrT el "data-sid-desc").getD ""
    let descriptionLong := getAttrT el "data-sid-desc-long"
    let action :=
      match getAttrT el "data-sid-action" with
      | some actionAttr =>
        (toActionType (jsToLower (jsTrim actionAttr))).getD .click
      | Option.none => .click
    let input :=
      match getAttrT el "data-sid-input" with
      | some inputAttr => parseInputAttribute inputAttr
      | Option.none => Option.none
    let options := parseOptionsAttribute (getAttr el "data-sid-options")
    let input :=
      match input, options with
      | some i, some o => some { i with options := some o }
      | i, _ => i
    let tracking :=
      match getAttrT el "data-sid-tracking" with
      | some trackingAttr =>
        (toTrackingType (jsToLower (jsTrim trackingAttr))).getD .async
      | Option.none => .async
    let destination := getAttrT el "data-sid-destination"
    let humanInput :=
      match getAttrT el "data-sid-human-input" with
      | some humanInputAttr => parseHumanInputAttribute jsonParse humanInputAttr
      | Option.none => Option.none
    let disabled := getAttr el "data-sid-disabled" = some "true"
    let disabledDescription := getAttrT el "data-sid-disabled-desc"
    some {
      id := id
      description := description
      descriptionLong := descriptionLong
      action := action
      input := input
      options := options
      tracking := tracking
      destination := destination
      humanInput := humanInput
      disabled := disabled
      disabledDescription := disabledDescription
    }

/-! ### Element registry (packages/runtime/src/element-registry.ts)

`cssEscape` stands for the host `CSS.escape`; the registry is the map of
`SIDElement`s keyed by ID, driven by the initial scan and mutation events. -/

/-- `generateSelector`: a CSS selector targeting the `data-sid` value. -/
def generateSelector (cssEscape : String → String) (id : String) : String :=
  "[data-sid=\"" ++ cssEscape id ++ "\"]"

/-- `isTracked`: whether a tracking type yields a trackable operation. -/
def isTracked (tracking : SIDTrackingType) : Bool :=
  tracking ≠ SIDTrackingType.none

/-- `createActionDefinition`: parsed attributes to an `ActionDefinition`. -/
def createActionDefinition (attrs : ParsedAttributes) : ActionDefinition :=
  { type := attrs.action
    input := attrs.input
    tracked := isTracked attrs.tracking
    description := attrs.description }

/-- `convertToSIDElement`: parsed attributes to a `SIDElement`. -/
def convertToSIDElement (cssEscape : String → String)
    (attrs : ParsedAttributes) : SIDElement :=
  { id := attrs.id
    selector := generateSelector cssEscape attrs.id
    description := attrs.description
    descriptionLong := attrs.descriptionLong
    actions := [createActionDefinition attrs]
    disabled := attrs.disabled
    disabledDescription := attrs.disabledDescription
    humanInput := attrs.humanInput }

/-- `ElementRegistry.parseElement`: `parseAttributes` then conversion. -/
def parseElement (jsonParse : String → Option JsonValue)
    (cssEscape : String → String) (el : DomNode) : Option SIDElement :=
  (parseAttributes jsonParse el).map (convertToSIDElement cssEscape)

/-- The registry's element map (`ElementRegistry.elements`). -/
abbrev RegistryMap := List (String × SIDElement)

/-- Parse one node and index it if it is a SID element (the body of each
registration loop in `scanDocument`/`handleAddedNode`). -/
def registerNode (jsonParse : String → Option JsonValue)
    (cssEscape : String → String) (st : RegistryMap) (el : DomNode) : RegistryMap :=
  match parseElement jsonParse cssEscape el with
  | some sidElement => insertP st sidElement.id sidElement
  | Option.none => st

/-- `ElementRegistry.scanDocument`: clear, then parse and register every
node of the document in document order (`querySelectorAll('[data-sid]')`
filters to attribute carriers; `parseElement` already rejects the rest). -/
def scanDocument (jsonParse : String → Option JsonValue)
    (cssEscape : String → String) (doc : Document) : RegistryMap :=
  doc.nodes.foldl (fun st p => registerNode jsonParse cssEscape st p.2) []

/-- `ElementRegistry.handleAddedNode`: the node itself when it carries
`data-sid`, then its `[data-sid]` descendants. -/
def handleAddedNode (jsonParse : String → Option JsonValue)
    (cssEscape : String → String) (st : RegistryMap) (node : DomNode)
    (descendants : List DomNode) : RegistryMap :=
  let st := if (getAttr node "data-sid").isSome
    then registerNode jsonParse cssEscape st node else st
  descendants.foldl (fun s d => registerNode jsonParse cssEscape s d) st

/-- `ElementRegistry.handleRemovedNode`: drop the node's entry and its
`[data-sid]` descendants' entries. -/
def handleRemovedNode (st : RegistryMap) (node : DomNode)
    (descendants : List DomNode) : RegistryMap :=
  let st := match getAttrT node "data-sid" with
    | some id => eraseP st id
    | Option.none => st
  descendants.foldl
    (fun s d => match getAttrT d "data-sid" with
      | some descendantId => eraseP s descendantId
      | Option.none => s) st

/-- The `data-sid`-removed fallback: linear scan for the entry whose
selector still resolves to the mutated node, delete it and break. -/
def removeEntryForNode (doc : Document) (nodeId : Nat) : RegistryMap → RegistryMap
  | [] => []
  | (id, sidEl) :: rest =>
    match doc.querySelector sidEl.selector with
    | some (nid, _) =>
      if nid = nodeId then rest
      else (id, sidEl) :: removeEntryForNode doc nodeId rest
    | Option.none => (id, sidEl) :: removeEntryForNode doc nodeId rest

/-- `ElementRegistry.handleAttributeChange` on the node stored as `nodeId`. -/
def handleAttributeChange (jsonParse : String → Option JsonValue)
    (cssEscape : String → String) (doc : Document) (st : RegistryMap)
    (nodeId : Nat) (attrName : String) : RegistryMap :=
  match lookupP doc.nodes nodeId with
  | Option.none => st
  | some element =>
    if attrName = "data-sid" then
      match getAttrT element "data-sid" with
      | some _ => registerNode jsonParse cssEscape st element
      | Option.none => removeEntryForNode doc nodeId st
    else
      match getAttrT element "data-sid" with
      | some id =>
        if (lookupP st id).isSome then registerNode jsonParse cssEscape st element
        else st
      | Option.none => st

/-- The registry's inputs over time: initial/explicit scans and the three
mutation-observer callbacks. -/
inductive RegEvent
  | scan (doc : Document)
  | addedNode (node : DomNode) (descendants : List DomNode)
  | removedNode (node : DomNode) (descendants : List DomNode)
  | attrChange (doc : Document) (nodeId : Nat) (attrName : String)

def applyRegEvent (jsonParse : String → Option JsonValue)
    (cssEscape : String → String) (st : RegistryMap) : RegEvent → RegistryMap
  | .scan doc => scanDocument jsonParse cssEscape doc
  | .addedNode n ds => handleAddedNode jsonParse cssEscape st n ds
  | .removedNode n ds => handleRemovedNode st n ds
  | .attrChange doc nid a => handleAttributeChange jsonParse cssEscape doc st nid a

def runRegEvents (jsonParse : String → Option JsonValue)
    (cssEscape : String → String) (st : RegistryMap) (evs : List RegEvent) : RegistryMap :=
  evs.foldl (applyRegEvent jsonParse cssEscape) st

/-! ### Interaction executor (packages/runtime/src/interaction-executor.ts)

The executor's suspension points are explicit: an `execute` call either
settles immediately (`ExecOutcome.immediate`) or suspends as promise
`callId` (`ExecOutcome.suspended`); `ExecState.settled` logs the later
resolution of suspended promises, `ExecState.timers` the armed
`setTimeout` timers of the single-threaded event loop. -/

/-- Default timeout for tracked operations in milliseconds. -/
def DEFAULT_TIMEOUT_MS : Nat := 30000

/-- A pending operation: the stored resolver (identified by the promise it
settles) and the active timer handle (`PendingOperation`). -/
structure PendingOperation where
  resolveCallId : Nat
  timeoutId : Nat
deriving DecidableEq

/-- An armed `setTimeout` of the async branch: its handle and the values
the callback closed over (`id`, the promise's `resolve`, `timeout`). -/
structure TimerRec where
  timerId : Nat
  elemId : String
  callId : Nat
  timeoutMs : Nat
deriving DecidableEq

/-- The executor plus event-loop state. -/
structure ExecState where
  pendingOperations : List (String × PendingOperation)
  timers : List TimerRec
  settled : List (Nat × InteractionResult)
  nextTimerId : Nat
  nextCallId : Nat
deriving DecidableEq

def ExecState.init : ExecState := ⟨[], [], [], 0, 0⟩

/-- What an `execute` call hands back: a settled result within the same
macrotask, or a promise that is still pending when `execute` returns. -/
inductive ExecOutcome
  | immediate (result : InteractionResult)
  | suspended (callId : Nat)
deriving DecidableEq

/-- `String(action.value ?? '')`. -/
def valueToString : Option InteractionValue → String
  | Option.none => ""
  | some (.str s) => s
  | some (.num n) =>
    if n < 0 then "-" ++ natToString n.natAbs else natToString n.toNat
  | some (.bool b) => if b then "true" else "false"
  | some (.file _) => "[object File]"

/-- `Boolean(action.value)`. -/
def valueToBool : Option InteractionValue → Bool
  | Option.none => false
  | some (.str s) => s ≠ ""
  | some (.num n) => n ≠ 0
  | some (.bool b) => b
  | some (.file _) => true

/-- `InteractionExecutor.triggerAction` with the `execute*` helpers inlined:
dispatches the native DOM action, or throws (`Except.error` carries the
`Error.message`).  Each type check precedes any mutation, so a throwing
dispatch leaves the node unchanged. -/
def triggerAction (domElement : DomNode) (action : InteractionAction) :
    Except String DomNode :=
  match action.type with
  | .click => .ok { domElement with events := domElement.events ++ ["click"] }
  | .fill =>
    match domElement.kind with
    | .input _ | .textarea =>
      .ok { domElement with
        value := valueToString action.value
        events := domElement.events ++ ["input", "change"] }
    | _ => .error "Element is not a fillable input element"
  | .select =>
    match domElement.kind with
    | .selectEl =>
      .ok { domElement with
        value := valueToString action.value
        events := domElement.events ++ ["change"] }
    | _ => .error "Element is not a select element"
  | .check =>
    match domElement.kind with
    | .input _ =>
      .ok { domElement with
        checked := valueToBool action.value
        events := domElement.events ++ ["change"] }
    | _ => .error "Element is not a checkable input element"
  | .hover =>
    .ok { domElement with events := domElement.events ++ ["mouseenter", "mouseover"] }
  | .upload =>
    match domElement.kind with
    | .input inputType =>
      if inputType ≠ "file" then .error "Element is not a file input element"
      else
        match action.value with
        | some (.file name) =>
          .ok { domElement with
            files := [name]
            events := domElement.events ++ ["change"] }
        | _ => .error "Upload action requires a File value"
    | _ => .error "Element is not a file input element"

/-- The string `${action.type}` of a template literal. -/
def actionTypeStr : SIDActionType → String
  | .click => "click"
  | .fill => "fill"
  | .select => "select"
  | .check => "check"
  | .hover => "hover"
  | .upload => "upload"

/-- `InteractionExecutor.execute`: precondition checks in order, then
dispatch per tracking classification.  The registry, document and executor
state are explicit; `options` is the optional `timeout`.  The function is
total: every failure is a structured result, never a thrown exception. -/
def execute (jsonParse : String → Option JsonValue)
    (registry : RegistryMap) (doc : Document) (st : ExecState)
    (id : String) (action : InteractionAction) (options : Option Nat) :
    ExecOutcome × Document × ExecState :=
  let timeout := options.getD DEFAULT_TIMEOUT_MS
  match lookupP registry id with
  | Option.none =>
    let r : InteractionResult :=
      { success := false, status := .error
        error := some ("Element not found: " ++ id) }
    (.immediate r, doc, st)
  | some sidElement =>
    if sidElement.disabled then
      let errorMessage := match sidElement.disabledDescription with
        | some d => "Element is disabled: " ++ d
        | Option.none => "Element is disabled: " ++ id
      let r : InteractionResult :=
        { success := false, status := .error, error := some errorMessage }
      (.immediate r, doc, st)
    else
      match doc.querySelector sidElement.selector with
      | Option.none =>
        let r : InteractionResult :=
          { success := false, status := .error
            error := some ("Element not found in DOM: " ++ id) }
        (.immediate r, doc, st)
      | some (nid, domElement) =>
        let attrs := parseAttributes jsonParse domElement
        let trackingType := match attrs with
          | some a => a.tracking
          | Option.none => .async
        match trackingType with
        | .none =>
          match triggerAction domElement action with
          | .ok node =>
            let r : InteractionResult :=
              { success := true, status := .completed
                message := some (actionTypeStr action.type ++ " executed on " ++ id) }
            (.immediate r, doc.updateNode nid node, st)
          | .error msg =>
            let r : InteractionResult :=
              { success := false, status := .error
                error := some ("Action execution failed: " ++ msg) }
            (.immediate r, doc, st)
        | .navigation =>
          match triggerAction domElement action with
          | .ok node =>
            let r : InteractionResult :=
              { success := true, status := .navigation
                message := some ((attrs.bind ParsedAttributes.destination).getD
                  "Navigation triggered") }
            (.immediate r, doc.updateNode nid node, st)
          | .error msg =>
            let r : InteractionResult :=
              { success := false, status := .error
                error := some ("Action execution failed: " ++ msg) }
            (.immediate r, doc, st)
        | .external =>
          match triggerAction domElement action with
          | .ok node =>
            let r : InteractionResult :=
              { success := true, status := .external
                message := some (if sidElement.description = ""
                  then "External operation triggered" else sidElement.description) }
            (.immediate r, doc.updateNode nid node, st)
          | .error msg =>
            let r : InteractionResult :=
              { success := false, status := .error
                error := some ("Action execution failed: " ++ msg) }
            (.immediate r, doc, st)
        | .async =>
          let timeoutId := st.nextTimerId
          let callId := st.nextCallId
          let armed : TimerRec :=
            { timerId := timeoutId, elemId := id, callId := callId
              timeoutMs := timeout }
          let st1 : ExecState :=
            { st with
              timers := armed :: st.timers
              pendingOperations := insertP st.pendingOperations id
                { resolveCallId := callId, timeoutId := timeoutId }
              nextTimerId := st.nextTimerId + 1
              nextCallId := st.nextCallId + 1 }
          match triggerAction domElement action with
          | .ok node => (.suspended callId, doc.updateNode nid node, st1)
          | .error msg =>
            let st2 : ExecState :=
              { st1 with
                timers := st1.timers.filter fun t => t.timerId ≠ timeoutId
                pendingOperations := eraseP st1.pendingOperations id }
            let r : InteractionResult :=
              { success := false, status := .error
                error := some ("Action execution failed: " ++ msg) }
            (.immediate r, doc, st2)

/-- `InteractionExecutor.complete`: look up the pending operation for the
element; no-op when there is none, otherwise run its stored resolver
(cancel the timer, drop the entry, settle the promise with `success: true`
and the signalled status/message/effects). -/
def complete (st : ExecState) (elementId : String) (result : CompletionResult) :
    ExecState :=
  match lookupP st.pendingOperations elementId with
  | Option.none => st
  | some pending =>
    { st with
      timers := st.timers.filter fun t => t.timerId ≠ pending.timeoutId
      pendingOperations := eraseP st.pendingOperations elementId
      settled := (pending.resolveCallId,
        { success := true, status := result.status.toInteractionStatus,
          message := result.message, effects := result.effects }) :: st.settled }

/-- An armed timer fires: the `setTimeout` callback of the async branch
deletes the pending entry for its element and resolves its promise with the
timeout result.  A cancelled (disarmed) timer never fires. -/
def fireTimer (st : ExecState) (t : TimerRec) : ExecState :=
  if t ∈ st.timers then
    { st with
      timers := st.timers.filter fun u => u.timerId ≠ t.timerId
      pendingOperations := eraseP st.pendingOperations t.elemId
      settled := (t.callId,
        { success := true, status := .timeout,
          message := some ("Operation timed out after " ++
            natToString t.timeoutMs ++ "ms") }) :: st.settled }
  else st

/-! ### Context reader (packages/runtime/src/context-parser.ts)

Caching hands back object references, so the reader is embedded with an
explicit heap of allocated `SIDContextMetadata` objects: reference equality
of results is equality of heap references.  The module state holds the
`cachedContext`/`contextParsed` module-level variables. -/

/-- Parsed context metadata (`SIDContextMetadata`). -/
structure SIDContextMetadata where
  version : Option String := Option.none
  app : Option String := Option.none
  page : Option String := Option.none
  auth : Option String := Option.none
deriving DecidableEq

/-- The heap of allocated metadata objects: each `{...}` literal evaluated
by the reader allocates a fresh reference. -/
structure CtxHeap where
  objs : List (Nat × SIDContextMetadata)
  next : Nat
deriving DecidableEq

def CtxHeap.alloc (h : CtxHeap) (v : SIDContextMetadata) : Nat × CtxHeap :=
  (h.next, ⟨(h.next, v) :: h.objs, h.next + 1⟩)

def CtxHeap.valueAt (h : CtxHeap) (r : Nat) : Option SIDContextMetadata :=
  lookupP h.objs r

/-- The module-level mutable state: `cachedContext` (a reference or null)
and `contextParsed`. -/
structure CtxModuleState where
  cachedContext : Option Nat
  contextParsed : Bool
deriving DecidableEq

def CtxModuleState.init : CtxModuleState := ⟨Option.none, false⟩

/-- The document as the reader sees it: the
`script[type="application/sid+json"]` element and its text content. -/
inductive CtxDoc
  | noScript
  | script (content : String)
deriving DecidableEq

/-- `typeof parsed.f === 'string' ? parsed.f : undefined`. -/
def getStrField (fields : JsonFields) (name : String) : Option String :=
  match jsonLookup fields name with
  | some (.str s) => some s
  | _ => Option.none

/-- `parseContextScript`: returns the reference handed to the caller plus
the updated module state and heap.  `jsonParse` stands for `JSON.parse`
(`none` models a thrown SyntaxError); diagnostics are outside the model,
and the reader is total — parse failures produce an empty record, never a
thrown error.  (The server-side `typeof document === 'undefined'` escape is
outside this browser-document model.) -/
def parseContextScript (jsonParse : String → Option JsonValue)
    (doc : CtxDoc) (ms : CtxModuleState) (h : CtxHeap) :
    Nat × CtxModuleState × CtxHeap :=
  if ms.contextParsed then
    match ms.cachedContext with
    | some r => (r, ms, h)
    | Option.none =>
      let (r, h') := h.alloc {}
      (r, ms, h')
  else
    let ms1 : CtxModuleState := { ms with contextParsed := true }
    match doc with
    | .noScript =>
      let ms2 : CtxModuleState := { ms1 with cachedContext := Option.none }
      let (r, h') := h.alloc {}
      (r, ms2, h')
    | .script content =>
      if jsTrim content = "" then
        let ms2 : CtxModuleState := { ms1 with cachedContext := Option.none }
        let (r, h') := h.alloc {}
        (r, ms2, h')
      else
        match jsonParse (jsTrim content) with
        | Option.none =>
          let ms2 : CtxModuleState := { ms1 with cachedContext := Option.none }
          let (r, h') := h.alloc {}
          (r, ms2, h')
        | some parsed =>
          match parsed with
          | .obj fields =>
            let md : SIDContextMetadata :=
              { version := getStrField fields "version"
                app := getStrField fields "app"
                page := getStrField fields "page"
                auth := getStrField fields "auth" }
            let (r, h') := h.alloc md
            (r, { ms1 with cachedContext := some r }, h')
          | _ =>
            let ms2 : CtxModuleState := { ms1 with cachedContext := Option.none }
            let (r, h') := h.alloc {}
            (r, ms2, h')

/-- `getContextMetadata`: the public wrapper around `parseContextScript`. -/
def getContextMetadata (jsonParse : String → Option JsonValue)
    (doc : CtxDoc) (ms : CtxModuleState) (h : CtxHeap) :
    Nat × CtxModuleState × CtxHeap :=
  parseContextScript jsonParse doc ms h

/-- `clearContextCache`. -/
def clearContextCache (_ms : CtxModuleState) : CtxModuleState :=
  ⟨Option.none, false⟩

/-! ### Legacy operation tracker (packages/runtime/src/operation-tracker.ts) -/

/-- Operation status values (`SIDOperationStatus`). -/
inductive SIDOperationStatus
  | pending | success | error
deriving DecidableEq

/-- Status accepted by `OperationTracker.complete`: `'success' | 'error'`. -/
inductive TrackerCompleteStatus
  | success | error
deriving DecidableEq

def TrackerCompleteStatus.toOperationStatus :
    TrackerCompleteStatus → SIDOperationStatus
  | .success => .success
  | .error => .error

/-- A tracked async operation (`Operation`). -/
structure Operation where
  id : String
  elementId : String
  actionType : SIDActionType
  status : SIDOperationStatus
  message : Option String := Option.none
  startedAt : Nat
  completedAt : Option Nat := Option.none
  effects : Option OperationEffects := Option.none
deriving DecidableEq

/-- The tracker's store and ID counter (`OperationTracker`). -/
structure OperationTracker where
  operations : List (String × Operation)
  idCounter : Nat
deriving DecidableEq

def OperationTracker.init : OperationTracker := ⟨[], 0⟩

/-- `OperationTracker.start`: allocate `op-<counter>` after incrementing the
counter, store a pending record stamped `now` (`Date.now()`), return it. -/
def OperationTracker.start (tr : OperationTracker) (elementId : String)
    (actionType : SIDActionType) (now : Nat) : Operation × OperationTracker :=
  let counter := tr.idCounter + 1
  let id := "op-" ++ natToString counter
  let operation : Operation :=
    { id := id, elementId := elementId, actionType := actionType
      status := .pending, startedAt := now }
  (operation, ⟨insertP tr.operations id operation, counter⟩)

/-- `OperationTracker.complete`: no-op (with a diagnostic) when the id is
unknown or the record is not pending; otherwise settle it in place. -/
def OperationTracker.complete (tr : OperationTracker) (id : String)
    (status : TrackerCompleteStatus) (message : Option String)
    (effects : Option OperationEffects) (now : Nat) : OperationTracker :=
  match lookupP tr.operations id with
  | Option.none => tr
  | some operation =>
    if operation.status ≠ .pending then tr
    else
      let updated : Operation :=
        { operation with
          status := status.toOperationStatus
          completedAt := some now
          message := match message with
            | some m => some m
            | Option.none => operation.message
          effects := match effects with
            | some e => some e
            | Option.none => operation.effects }
      { tr with operations := insertP tr.operations id updated }

/-- `OperationTracker.get`. -/
def OperationTracker.get (tr : OperationTracker) (id : String) : Option Operation :=
  lookupP tr.operations id

/-- `OperationTracker.clear`: drop every record; the counter is deliberately
not reset, to keep ids unique across clears. -/
def OperationTracker.clear (tr : OperationTracker) : OperationTracker :=
  { tr with operations := [] }

/-- One call into the legacy tracker surface (the `poll` loop only reads
state, so a trace of mutating calls is `start`/`complete`/`clear`). -/
inductive TrackerEvent
  | start (elementId : String) (actionType : SIDActionType) (now : Nat)
  | complete (id : String) (status : TrackerCompleteStatus)
      (message : Option String) (effects : Option OperationEffects) (now : Nat)
  | clear

def applyTrackerEvent (tr : OperationTracker) : TrackerEvent → OperationTracker
  | .start elementId actionType now => (tr.start elementId actionType now).2
  | .complete id status message effects now =>
    tr.complete id status message effects now
  | .clear => tr.clear

def runTracker (tr : OperationTracker) (evs : List TrackerEvent) : OperationTracker :=
  evs.foldl applyTrackerEvent tr

/-- The identifiers handed out by the `start` calls of a trace, in order. -/
def allocatedIds (tr : OperationTracker) : List TrackerEvent → List String
  | [] => []
  | .start elementId actionType now :: evs =>
    ((tr.start elementId actionType now).1).id ::
      allocatedIds (tr.start elementId actionType now).2 evs
  | .complete id status message effects now :: evs =>
    allocatedIds (tr.complete id status message effects now) evs
  | .clear :: evs => allocatedIds tr.clear evs

/-- The id pattern the tracker hands out: `op-<c+1>, op-<c+2>, …` — `k` ids
counting up from counter value `c`. -/
def opIdsFrom : Nat → Nat → List String
  | _, 0 => []
  | c, k + 1 => ("op-" ++ natToString (c + 1)) :: opIdsFrom (c + 1) k

/-- The number of `start` calls in a trace. -/
def numStarts : List TrackerEvent → Nat
  | [] => 0
  | .start _ _ _ :: evs => numStarts evs + 1
  | _ :: evs => numStarts evs

/-! ### Derived definitions used by the verification statements -/

/-- The timer armed by the async branch of an `execute` call entered at
state `st`. -/
def armedTimer (st : ExecState) (id : String) (opts : Option Nat) : TimerRec :=
  { timerId := st.nextTimerId, elemId := id, callId := st.nextCallId
    timeoutMs := opts.getD DEFAULT_TIMEOUT_MS }

/-- The executor state the async branch of `execute` leaves behind when the
native dispatch succeeded. -/
def asyncArmedState (st : ExecState) (id : String) (opts : Option Nat) : ExecState :=
  { st with
    timers := armedTimer st id opts :: st.timers
    pendingOperations := insertP st.pendingOperations id
      { resolveCallId := st.nextCallId, timeoutId := st.nextTimerId }
    nextTimerId := st.nextTimerId + 1
    nextCallId := st.nextCallId + 1 }

/-- The document states in which `parseContextScript` fails to obtain a
JSON object: no script element, blank content, unparseable content
(`JSON.parse` throws), or JSON that is not an object. -/
def ctxParseFails (jsonParse : String → Option JsonValue) : CtxDoc → Prop
  | .noScript => True
  | .script content =>
    jsTrim content = "" ∨
      ∀ fields, jsonParse (jsTrim content) ≠ some (.obj fields)

/- Concrete inputs used by witnesses and counterexamples. -/

/-- A `JSON.parse` oracle for markup that carries no JSON attributes. -/
def jsonParseNone : String → Option JsonValue := fun _ => Option.none

/-- A `CSS.escape` stand-in for identifiers that need no escaping. -/
def cssEscapeId : String → String := fun s => s

def clickAction : InteractionAction := { type := .click }

def demoAsyncNode : DomNode := { attrs := [("data-sid", "e1")], kind := .other }

def demoAsyncNodeClicked : DomNode :=
  { attrs := [("data-sid", "e1")], kind := .other, events := ["click"] }

def demoAsyncElement : SIDElement :=
  { id := "e1", selector := "sel1", description := ""
    descriptionLong := Option.none, actions := [], disabled := false
    disabledDescription := Option.none, humanInput := Option.none }

def demoAsyncReg : RegistryMap := [("e1", demoAsyncElement)]

def demoAsyncDoc : Document :=
  { nodes := [(0, demoAsyncNode)], query := [("sel1", 0)] }

def demoDoc1 : Document :=
  { nodes := [(0, demoAsyncNodeClicked)], query := [("sel1", 0)] }

def demoDisabledElement : SIDElement :=
  { id := "e2", selector := "sel2", description := ""
    descriptionLong := Option.none, actions := [], disabled := true
    disabledDescription := some "locked", humanInput := Option.none }

def demoDoc2 : Document :=
  { nodes := [(0, { attrs := [("data-sid", "e1")], kind := .other
                    events := ["click", "click"] })]
    query := [("sel1", 0)] }

/-- Executor state after two back-to-back async `execute` calls on `e1`. -/
def demoOverwriteState : ExecState :=
  asyncArmedState (asyncArmedState ExecState.init "e1" Option.none) "e1" Option.none

def demoTrackerEvents : List TrackerEvent :=
  [.start "btn1" .click 5, .start "btn2" .fill 6, .clear, .start "btn3" .click 7]

/-- A registered element whose selector resolves to no node of
`demoAsyncDoc`. -/
def demoOrphanElement : SIDElement :=
  { id := "e9", selector := "nores", description := ""
    descriptionLong := Option.none, actions := [], disabled := false
    disabledDescription := Option.none, humanInput := Option.none }

/-- The element the registry derives from `demoAsyncNode`. -/
def demoScannedElement : SIDElement :=
  { id := "e1", selector := "[data-sid=\"e1\"]", description := ""
    descriptionLong := Option.none
    actions := [{ type := .click, input := Option.none, tracked := true
                  description := "" }]
    disabled := false, disabledDescription := Option.none
    humanInput := Option.none }

/-! ### Helper lemmas -/

theorem complete_noop_of_none {st : ExecState} {elementId : String}
    (result : CompletionResult)
    (h : lookupP st.pendingOperations elementId = Option.none) :
    complete st elementId result = st := by
  unfold complete
  rw [h]

theorem filter_ne_of_lt {ts : List TimerRec} {n : Nat}
    (h : ∀ t ∈ ts, t.timerId < n) :
    (ts.filter fun t => t.timerId ≠ n) = ts := by
  apply List.filter_eq_self.mpr
  intro t ht
  simpa using Nat.ne_of_lt (h t ht)

theorem lookupP_eq_none_of_ne {κ α : Type} [DecidableEq κ] {l : List (κ × α)} {k : κ}
    (h : ∀ p ∈ l, p.1 ≠ k) : lookupP l k = Option.none := by
  induction l with
  | nil => rfl
  | cons p rest ih =>
    obtain ⟨k', v'⟩ := p
    rw [lookupP, if_neg (h (k', v') (List.mem_cons_self _ _))]
    exact ih fun q hq => h q (List.mem_cons_of_mem _ hq)

/-- An `execute` call suspends exactly when the async branch armed its
timer and registered its pending operation: the caller's promise is
`st.nextCallId` and the state is `asyncArmedState`. -/
theorem execute_suspended_shape {jsonParse : String → Option JsonValue}
    {reg : RegistryMap} {doc : Document} {st : ExecState} {id : String}
    {action : InteractionAction} {opts : Option Nat} {cid : Nat}
    {doc' : Document} {st' : ExecState}
    (h : execute jsonParse reg doc st id action opts = (.suspended cid, doc', st')) :
    cid = st.nextCallId ∧ st' = asyncArmedState st id opts := by
  unfold execute at h
  dsimp only at h
  split at h
  · simp at h
  · split at h
    · simp at h
    · split at h
      · simp at h
      · split at h
        · split at h <;> simp at h
        · split at h <;> simp at h
        · split at h <;> simp at h
        · split at h
          · simp only [Prod.mk.injEq, ExecOutcome.suspended.injEq] at h
            obtain ⟨h1, h2, h3⟩ := h
            refine ⟨h1.symm, ?_⟩
            rw [← h3]
            rfl
          · simp at h

theorem parseInputAttribute_options {s : String} {v : InputDefinition}
    (h : parseInputAttribute s = some v) : v.options = Option.none := by
  unfold parseInputAttribute at h
  split at h
  · simp at h
  · dsimp only at h
    split at h
    · split at h
      · split at h
        · simp only [Option.some.injEq] at h
          subst h
          rfl
        · split at h
          · simp only [Option.some.injEq] at h
            subst h
            rfl
          · simp at h
      · simp at h
    · simp at h

theorem opId_inj {a b : Nat} (h : "op-" ++ natToString a = "op-" ++ natToString b) :
    a = b := by
  apply natToString_inj
  apply String.ext
  have hd := congrArg String.data h
  rw [String.data_append, String.data_append] at hd
  exact List.append_cancel_left hd

theorem not_mem_opIdsFrom (k : Nat) : ∀ (c m : Nat), m ≤ c →
    ("op-" ++ natToString m) ∉ opIdsFrom c k := by
  induction k with
  | zero =>
    intro c m _ hmem
    simp [opIdsFrom] at hmem
  | succ k ih =>
    intro c m hle hmem
    rw [opIdsFrom] at hmem
    rcases List.mem_cons.mp hmem with h | h
    · have := opId_inj h
      omega
    · exact ih (c + 1) m (by omega) h

theorem opIdsFrom_nodup (k : Nat) : ∀ c : Nat, (opIdsFrom c k).Nodup := by
  induction k with
  | zero => intro c; simp [opIdsFrom]
  | succ k ih =>
    intro c
    rw [opIdsFrom]
    exact List.nodup_cons.mpr ⟨not_mem_opIdsFrom k (c + 1) (c + 1) (le_refl _), ih (c + 1)⟩

theorem complete_idCounter (tr : OperationTracker) (id : String)
    (status : TrackerCompleteStatus) (message : Option String)
    (effects : Option OperationEffects) (now : Nat) :
    (tr.complete id status message effects now).idCounter = tr.idCounter := by
  unfold OperationTracker.complete
  split
  · rfl
  · split <;> rfl

theorem allocatedIds_eq (evs : List TrackerEvent) : ∀ tr : OperationTracker,
    allocatedIds tr evs = opIdsFrom tr.idCounter (numStarts evs) := by
  induction evs with
  | nil => intro tr; rfl
  | cons ev evs ih =>
    intro tr
    cases ev with
    | start elementId actionType now =>
      show _ :: allocatedIds (tr.start elementId actionType now).2 evs =
        opIdsFrom tr.idCounter (numStarts evs + 1)
      rw [opIdsFrom, ih]
      rfl
    | complete id status message effects now =>
      show allocatedIds (tr.complete id status message effects now) evs =
        opIdsFrom tr.idCounter (numStarts evs)
      rw [ih, complete_idCounter]
    | clear =>
      show allocatedIds tr.clear evs = opIdsFrom tr.idCounter (numStarts evs)
      rw [ih]
      rfl

theorem registerNode_inv {jsonParse : String → Option JsonValue}
    {cssEscape : String → String} {st : RegistryMap} {el : DomNode}
    (h : ∀ p ∈ st, (p.2 : SIDElement).actions.length = 1) :
    ∀ p ∈ registerNode jsonParse cssEscape st el, (p.2).actions.length = 1 := by
  intro p hp
  unfold registerNode at hp
  cases hpe : parseElement jsonParse cssEscape el with
  | none =>
    rw [hpe] at hp
    exact h p hp
  | some sidElement =>
    rw [hpe] at hp
    rcases mem_insertP hp with h1 | h1
    · obtain ⟨attrs, _, hconv⟩ := Option.map_eq_some'.mp hpe
      rw [h1]
      rw [← hconv]
      rfl
    · exact h p h1

theorem foldl_registry_inv {α : Type} (f : RegistryMap → α → RegistryMap)
    (hf : ∀ st a, (∀ p ∈ st, (p.2 : SIDElement).actions.length = 1) →
      ∀ p ∈ f st a, (p.2).actions.length = 1) :
    ∀ (l : List α) (st : RegistryMap),
      (∀ p ∈ st, (p.2 : SIDElement).actions.length = 1) →
      ∀ p ∈ l.foldl f st, (p.2).actions.length = 1 := by
  intro l
  induction l with
  | nil => intro st h; exact h
  | cons a l ih =>
    intro st h
    exact ih (f st a) (hf st a h)

theorem mem_removeEntryForNode {doc : Document} {nodeId : Nat} :
    ∀ {st : RegistryMap} {p : String × SIDElement},
      p ∈ removeEntryForNode doc nodeId st → p ∈ st := by
  intro st
  induction st with
  | nil =>
    intro p hp
    simp [removeEntryForNode] at hp
  | cons q rest ih =>
    intro p hp
    obtain ⟨id, sidEl⟩ := q
    rw [removeEntryForNode] at hp
    split at hp
    · split at hp
      · exact List.mem_cons_of_mem _ hp
      · rcases List.mem_cons.mp hp with h | h
        · exact h ▸ List.mem_cons_self _ _
        · exact List.mem_cons_of_mem _ (ih h)
    · rcases List.mem_cons.mp hp with h | h
      · exact h ▸ List.mem_cons_self _ _
      · exact List.mem_cons_of_mem _ (ih h)

theorem applyRegEvent_inv {jsonParse : String → Option JsonValue}
    {cssEscape : String → String} {st : RegistryMap} {ev : RegEvent}
    (h : ∀ p ∈ st, (p.2 : SIDElement).actions.length = 1) :
    ∀ p ∈ applyRegEvent jsonParse cssEscape st ev, (p.2).actions.length = 1 := by
  cases ev with
  | scan doc =>
    exact foldl_registry_inv _ (fun s a hs => registerNode_inv hs) doc.nodes []
      (by simp)
  | addedNode n ds =>
    show ∀ p ∈ handleAddedNode jsonParse cssEscape st n ds, (p.2).actions.length = 1
    unfold handleAddedNode
    refine foldl_registry_inv _ (fun s a hs => registerNode_inv hs) ds _ ?_
    split
    · exact registerNode_inv h
    · exact h
  | removedNode n ds =>
    show ∀ p ∈ handleRemovedNode st n ds, (p.2).actions.length = 1
    unfold handleRemovedNode
    refine foldl_registry_inv _ ?_ ds _ ?_
    · intro s a hs p hp
      split at hp
      · exact hs p (mem_eraseP hp)
      · exact hs p hp
    · split
      · intro p hp
        exact h p (mem_eraseP hp)
      · exact h
  | attrChange doc nid a =>
    show ∀ p ∈ handleAttributeChange jsonParse cssEscape doc st nid a,
      (p.2).actions.length = 1
    unfold handleAttributeChange
    split
    · exact h
    · split
      · split
        · exact registerNode_inv h
        · intro p hp
          exact h p (mem_removeEntryForNode hp)
      · split
        · split
          · exact registerNode_inv h
          · exact h
        · exact h

/-! ### Claim theorems -/

/-- C1: for every `execute` call that suspends (async tracking, dispatch
succeeded), a completion signal for that identifier delivered before the
timeout settles the caller's promise with the signalled status, message and
effects, with the success flag forced `true` (even for status `error`);
the timeout timer is cancelled (the timer list returns to what it was
before the call) and the pending-operation entry for the identifier is
removed. -/
theorem execute_async_complete_settles {jsonParse : String → Option JsonValue}
    {reg : RegistryMap} {doc : Document} {st : ExecState} {id : String}
    {action : InteractionAction} {opts : Option Nat} {cid : Nat}
    {doc' : Document} {st' : ExecState}
    (hexec : execute jsonParse reg doc st id action opts = (.suspended cid, doc', st'))
    (hWF : ∀ t ∈ st.timers, t.timerId < st.nextTimerId)
    (payload : CompletionResult) :
    lookupP (complete st' id payload).settled cid =
      some { success := true, status := payload.status.toInteractionStatus
             message := payload.message, effects := payload.effects } ∧
    lookupP (complete st' id payload).pendingOperations id = Option.none ∧
    (complete st' id payload).timers = st.timers := by
  obtain ⟨rfl, rfl⟩ := execute_suspended_shape hexec
  unfold complete
  rw [show (asyncArmedState st id opts).pendingOperations =
    insertP st.pendingOperations id
      { resolveCallId := st.nextCallId, timeoutId := st.nextTimerId } from rfl]
  rw [lookupP_insertP_self]
  refine ⟨?_, ?_, ?_⟩
  · simp [lookupP]
  · simp only [eraseP_insertP]
    exact lookupP_eraseP_self _ _
  · show ((armedTimer st id opts :: st.timers).filter
      fun t => t.timerId ≠ st.nextTimerId) = st.timers
    rw [List.filter_cons]
    rw [if_neg (by simp [armedTimer])]
    exact filter_ne_of_lt hWF

/-- Witness for C1: on a registered async element, `execute` suspends as
promise 0; signalling completion with status `error` settles it with
`success: true`, removes the pending entry and cancels the timer. -/
theorem execute_async_complete_settles_witness :
    execute jsonParseNone demoAsyncReg demoAsyncDoc ExecState.init "e1" clickAction
        Option.none =
      (.suspended 0, demoDoc1, asyncArmedState ExecState.init "e1" Option.none) ∧
    lookupP (complete (asyncArmedState ExecState.init "e1" Option.none) "e1"
        { status := .error, message := some "boom" }).settled 0 =
      some { success := true, status := .error, message := some "boom" } ∧
    lookupP (complete (asyncArmedState ExecState.init "e1" Option.none) "e1"
        { status := .error, message := some "boom" }).pendingOperations "e1" =
      Option.none ∧
    (complete (asyncArmedState ExecState.init "e1" Option.none) "e1"
        { status := .error, message := some "boom" }).timers =
      ExecState.init.timers := by
  have hexec : execute jsonParseNone demoAsyncReg demoAsyncDoc ExecState.init "e1"
      clickAction Option.none =
      (.suspended 0, demoDoc1, asyncArmedState ExecState.init "e1" Option.none) := by
    decide
  have h := execute_async_complete_settles hexec (by decide)
    { status := .error, message := some "boom" }
  exact ⟨hexec, h.1, h.2.1, h.2.2⟩

/-- C2: for every `execute` call that suspends (async tracking), a timer of
the effective timeout (`options.timeout`, default 30000 ms) is armed; when
it fires (no completion signal arrived first) the promise settles with
`success: true`, status `timeout` and a message naming the duration, the
pending entry is removed, and a completion signal delivered afterwards is a
no-op. -/
theorem execute_async_timeout {jsonParse : String → Option JsonValue}
    {reg : RegistryMap} {doc : Document} {st : ExecState} {id : String}
    {action : InteractionAction} {opts : Option Nat} {cid : Nat}
    {doc' : Document} {st' : ExecState}
    (hexec : execute jsonParse reg doc st id action opts = (.suspended cid, doc', st')) :
    DEFAULT_TIMEOUT_MS = 30000 ∧
    armedTimer st id opts ∈ st'.timers ∧
    (armedTimer st id opts).timeoutMs = opts.getD DEFAULT_TIMEOUT_MS ∧
    lookupP (fireTimer st' (armedTimer st id opts)).settled cid =
      some { success := true, status := .timeout
             message := some ("Operation timed out after " ++
               natToString (opts.getD DEFAULT_TIMEOUT_MS) ++ "ms") } ∧
    lookupP (fireTimer st' (armedTimer st id opts)).pendingOperations id =
      Option.none ∧
    (∀ payload, complete (fireTimer st' (armedTimer st id opts)) id payload =
      fireTimer st' (armedTimer st id opts)) := by
  obtain ⟨rfl, rfl⟩ := execute_suspended_shape hexec
  have hmem : armedTimer st id opts ∈ (asyncArmedState st id opts).timers :=
    List.mem_cons_self _ _
  have hfire : fireTimer (asyncArmedState st id opts) (armedTimer st id opts) =
      { asyncArmedState st id opts with
        timers := (asyncArmedState st id opts).timers.filter
          fun u => u.timerId ≠ (armedTimer st id opts).timerId
        pendingOperations := eraseP (asyncArmedState st id opts).pendingOperations id
        settled := (st.nextCallId,
          { success := true, status := .timeout
            message := some ("Operation timed out after " ++
              natToString (opts.getD DEFAULT_TIMEOUT_MS) ++ "ms") }) ::
          (asyncArmedState st id opts).settled } := by
    unfold fireTimer
    rw [if_pos hmem]
    rfl
  refine ⟨rfl, hmem, rfl, ?_, ?_, ?_⟩
  · rw [hfire]
    simp [lookupP]
  · rw [hfire]
    show lookupP (eraseP (insertP st.pendingOperations id _) id) id = Option.none
    rw [eraseP_insertP]
    exact lookupP_eraseP_self _ _
  · intro payload
    apply complete_noop_of_none
    rw [hfire]
    show lookupP (eraseP (insertP st.pendingOperations id _) id) id = Option.none
    rw [eraseP_insertP]
    exact lookupP_eraseP_self _ _

/-- Witness for C2: with no `timeout` option the armed timer carries
30000 ms; firing it settles promise 0 with the timeout result, removes the
pending entry, and a later completion signal changes nothing. -/
theorem execute_async_timeout_witness :
    DEFAULT_TIMEOUT_MS = 30000 ∧
    armedTimer ExecState.init "e1" Option.none ∈
      (asyncArmedState ExecState.init "e1" Option.none).timers ∧
    (armedTimer ExecState.init "e1" Option.none).timeoutMs = 30000 ∧
    lookupP (fireTimer (asyncArmedState ExecState.init "e1" Option.none)
        (armedTimer ExecState.init "e1" Option.none)).settled 0 =
      some { success := true, status := .timeout
             message := some "Operation timed out after 30000ms" } ∧
    lookupP (fireTimer (asyncArmedState ExecState.init "e1" Option.none)
        (armedTimer ExecState.init "e1" Option.none)).pendingOperations "e1" =
      Option.none ∧
    complete (fireTimer (asyncArmedState ExecState.init "e1" Option.none)
        (armedTimer ExecState.init "e1" Option.none)) "e1" { status := .completed } =
      fireTimer (asyncArmedState ExecState.init "e1" Option.none)
        (armedTimer ExecState.init "e1" Option.none) := by
  have h := execute_async_timeout (show execute jsonParseNone demoAsyncReg demoAsyncDoc
      ExecState.init "e1" clickAction Option.none =
      (.suspended 0, demoDoc1, asyncArmedState ExecState.init "e1" Option.none) by decide)
  exact ⟨h.1, h.2.1, h.2.2.1, h.2.2.2.1, h.2.2.2.2.1, h.2.2.2.2.2 _⟩

/-- C3: a completion signal for an identifier with no pending operation is
a harmless no-op: the executor state (pending map included) is unchanged
and no promise is settled, and no error is raised (`complete` is total). -/
theorem complete_unknown_id_noop (st : ExecState) (elementId : String)
    (result : CompletionResult)
    (h : lookupP st.pendingOperations elementId = Option.none) :
    complete st elementId result = st :=
  complete_noop_of_none result h

/-- Witness for C3: signalling completion on a fresh executor is a no-op. -/
theorem complete_unknown_id_noop_witness :
    lookupP ExecState.init.pendingOperations "ghost" = Option.none ∧
    complete ExecState.init "ghost" { status := .completed } = ExecState.init :=
  ⟨by decide,
    complete_unknown_id_noop ExecState.init "ghost" { status := .completed } (by decide)⟩

/-- C4: executing on a registered element flagged disabled returns
`success: false`, status `error`, citing the disabled-reason text when
present (else a generic message naming the id); the document and the
executor state (pending map included) are returned unchanged — no native
dispatch happens and no pending operation is created. -/
theorem execute_disabled_error (jsonParse : String → Option JsonValue)
    (reg : RegistryMap) (doc : Document) (st : ExecState) (id : String)
    (action : InteractionAction) (opts : Option Nat) (el : SIDElement)
    (hreg : lookupP reg id = some el) (hdis : el.disabled = true) :
    execute jsonParse reg doc st id action opts =
      (.immediate { success := false, status := .error
                    error := some (match el.disabledDescription with
                      | some d => "Element is disabled: " ++ d
                      | Option.none => "Element is disabled: " ++ id) }, doc, st) := by
  unfold execute
  rw [hreg]
  simp [hdis]

/-- Witness for C4: a disabled element with reason text `locked` yields the
error citing it, with document and executor state untouched. -/
theorem execute_disabled_error_witness :
    lookupP [("e2", demoDisabledElement)] "e2" = some demoDisabledElement ∧
    demoDisabledElement.disabled = true ∧
    execute jsonParseNone [("e2", demoDisabledElement)] demoAsyncDoc ExecState.init
        "e2" clickAction Option.none =
      (.immediate { success := false, status := .error
                    error := some "Element is disabled: locked" },
        demoAsyncDoc, ExecState.init) := by
  refine ⟨by decide, by decide, ?_⟩
  exact execute_disabled_error jsonParseNone [("e2", demoDisabledElement)] demoAsyncDoc
    ExecState.init "e2" clickAction Option.none demoDisabledElement (by decide) (by decide)

/-- C5: the precondition checks of `execute` run in order and short-circuit
with a structured error result (never a thrown exception — `execute` is a
total function): an unregistered identifier yields the "not found" error
regardless of anything else, and a registered, non-disabled element whose
locator resolves to no live node yields the "not found in DOM" error, in
both cases leaving the document and executor state unchanged. -/
theorem execute_not_found_errors (jsonParse : String → Option JsonValue)
    (reg : RegistryMap) (doc : Document) (st : ExecState) (id : String)
    (action : InteractionAction) (opts : Option Nat) :
    (lookupP reg id = Option.none →
      execute jsonParse reg doc st id action opts =
        (.immediate { success := false, status := .error
                      error := some ("Element not found: " ++ id) }, doc, st)) ∧
    (∀ el, lookupP reg id = some el → el.disabled = false →
      doc.querySelector el.selector = Option.none →
      execute jsonParse reg doc st id action opts =
        (.immediate { success := false, status := .error
                      error := some ("Element not found in DOM: " ++ id) }, doc, st)) := by
  constructor
  · intro h
    unfold execute
    rw [h]
  · intro el hreg hdis hq
    unfold execute
    rw [hreg]
    simp [hdis, hq]

/-- Witness for C5: an unknown identifier and a registered element whose
selector resolves to nothing produce the two structured errors. -/
theorem execute_not_found_errors_witness :
    execute jsonParseNone [] demoAsyncDoc ExecState.init "ghost" clickAction
        Option.none =
      (.immediate { success := false, status := .error
                    error := some "Element not found: ghost" },
        demoAsyncDoc, ExecState.init) ∧
    execute jsonParseNone [("e9", demoOrphanElement)] demoAsyncDoc ExecState.init
        "e9" clickAction Option.none =
      (.immediate { success := false, status := .error
                    error := some "Element not found in DOM: e9" },
        demoAsyncDoc, ExecState.init) := by
  have h := execute_not_found_errors jsonParseNone [] demoAsyncDoc ExecState.init
    "ghost" clickAction Option.none
  have h2 := execute_not_found_errors jsonParseNone [("e9", demoOrphanElement)]
    demoAsyncDoc ExecState.init "e9" clickAction Option.none
  exact ⟨h.1 (by decide), h2.2 demoOrphanElement (by decide) (by decide) (by decide)⟩

/-- C6 counterexample: the claim's reference-stability part fails on the
code.  With no metadata block, the first reader call and the second (no
cache invalidation in between) return distinct freshly allocated empty
objects (references 0 and 1): `cachedContext` stays null on the failure
path, and the cached-path `cachedContext || {}` allocates a new `{}` on
every call.  The value is the empty record each time. -/
theorem contextReader_reference_counterexample :
    (getContextMetadata jsonParseNone CtxDoc.noScript CtxModuleState.init ⟨[], 0⟩).1 = 0 ∧
    ((getContextMetadata jsonParseNone CtxDoc.noScript CtxModuleState.init
        ⟨[], 0⟩).2.2).valueAt 0 = some {} ∧
    (getContextMetadata jsonParseNone CtxDoc.noScript
        (getContextMetadata jsonParseNone CtxDoc.noScript CtxModuleState.init ⟨[], 0⟩).2.1
        (getContextMetadata jsonParseNone CtxDoc.noScript CtxModuleState.init ⟨[], 0⟩).2.2).1
      = 1 := by
  decide

/-- C6 (amended): in every failure document state (missing block, blank
content, malformed JSON, non-object JSON) each reader call returns, without
throwing, a freshly allocated object (reference `h.next`) whose value is
the empty record, and the cache stays empty — so repeated calls agree by
value but not by reference; when the cache holds a successfully parsed
object, every later call returns that same reference with state and heap
untouched. -/
theorem contextReader_empty_and_cached (jsonParse : String → Option JsonValue)
    (doc : CtxDoc) (ms : CtxModuleState) (h : CtxHeap) :
    (ms.contextParsed = false → ctxParseFails jsonParse doc →
      (getContextMetadata jsonParse doc ms h).1 = h.next ∧
      ((getContextMetadata jsonParse doc ms h).2.2).valueAt h.next = some {} ∧
      ((getContextMetadata jsonParse doc ms h).2.1).cachedContext = Option.none ∧
      ((getContextMetadata jsonParse doc ms h).2.1).contextParsed = true) ∧
    (ms.contextParsed = true → ms.cachedContext = Option.none →
      (getContextMetadata jsonParse doc ms h).1 = h.next ∧
      ((getContextMetadata jsonParse doc ms h).2.2).valueAt h.next = some {} ∧
      (getContextMetadata jsonParse doc ms h).2.1 = ms) ∧
    (∀ r, ms.contextParsed = true → ms.cachedContext = some r →
      getContextMetadata jsonParse doc ms h = (r, ms, h)) := by
  refine ⟨?_, ?_, ?_⟩
  · intro hparsed hfails
    unfold getContextMetadata parseContextScript
    rw [hparsed]
    simp only [Bool.false_eq_true, if_false]
    cases doc with
    | noScript =>
      simp [CtxHeap.alloc, CtxHeap.valueAt, lookupP]
    | script content =>
      dsimp only
      rcases hfails with htrim | hobj
      · rw [if_pos htrim]
        simp [CtxHeap.alloc, CtxHeap.valueAt, lookupP]
      · by_cases htrim : jsTrim content = ""
        · rw [if_pos htrim]
          simp [CtxHeap.alloc, CtxHeap.valueAt, lookupP]
        · rw [if_neg htrim]
          cases hjp : jsonParse (jsTrim content) with
          | none => simp [CtxHeap.alloc, CtxHeap.valueAt, lookupP]
          | some v =>
            cases v with
            | obj fields => exact absurd hjp (hobj fields)
            | null => simp [CtxHeap.alloc, CtxHeap.valueAt, lookupP]
            | bool b => simp [CtxHeap.alloc, CtxHeap.valueAt, lookupP]
            | num n => simp [CtxHeap.alloc, CtxHeap.valueAt, lookupP]
            | str s => simp [CtxHeap.alloc, CtxHeap.valueAt, lookupP]
            | arr xs => simp [CtxHeap.alloc, CtxHeap.valueAt, lookupP]
  · intro hparsed hcache
    unfold getContextMetadata parseContextScript
    rw [hparsed, hcache]
    simp [CtxHeap.alloc, CtxHeap.valueAt, lookupP]
  · intro r hparsed hcache
    unfold getContextMetadata parseContextScript
    rw [hparsed, hcache]
    simp

/-- Witness for the amended C6: first call on a script-less document
returns a fresh empty record; a later call in the failed-cache state
returns the next fresh reference; a cached success reference is returned
as-is. -/
theorem contextReader_empty_and_cached_witness :
    (getContextMetadata jsonParseNone CtxDoc.noScript CtxModuleState.init ⟨[], 0⟩).1 = 0 ∧
    ((getContextMetadata jsonParseNone CtxDoc.noScript CtxModuleState.init
        ⟨[], 0⟩).2.2).valueAt 0 = some {} ∧
    (getContextMetadata jsonParseNone CtxDoc.noScript ⟨Option.none, true⟩ ⟨[], 1⟩).1 = 1 ∧
    getContextMetadata jsonParseNone CtxDoc.noScript ⟨some 0, true⟩ ⟨[(0, {})], 1⟩ =
      (0, ⟨some 0, true⟩, ⟨[(0, {})], 1⟩) := by
  have h1 := contextReader_empty_and_cached jsonParseNone CtxDoc.noScript
    CtxModuleState.init ⟨[], 0⟩
  have h2 := contextReader_empty_and_cached jsonParseNone CtxDoc.noScript
    ⟨Option.none, true⟩ ⟨[], 1⟩
  have h3 := contextReader_empty_and_cached jsonParseNone CtxDoc.noScript
    ⟨some 0, true⟩ ⟨[(0, {})], 1⟩
  exact ⟨(h1.1 rfl trivial).1, (h1.1 rfl trivial).2.1, (h2.2.1 rfl rfl).1,
    h3.2.2 0 rfl rfl⟩

/-- C7: for every accepted input-constraint string, re-encoding the parsed
record as `dataType + "," + (required ? "required" : "optional")` and
parsing the result reproduces exactly the original record (round trip). -/
theorem parseInput_roundTrip (s : String) (v : InputDefinition)
    (h : parseInputAttribute s = some v) :
    parseInputAttribute (dataTypeStr v.dataType ++ "," ++
      (if v.required then "required" else "optional")) = some v := by
  have hopt : v.options = Option.none := parseInputAttribute_options h
  obtain ⟨dt, r, o⟩ := v
  simp only at hopt
  subst hopt
  cases dt <;> cases r <;> decide

/-- Witness for C7: `"email,required"` parses and survives the round trip. -/
theorem parseInput_roundTrip_witness :
    parseInputAttribute "email,required" =
      some { dataType := .email, required := true, options := Option.none } ∧
    parseInputAttribute (dataTypeStr SIDInputDataType.email ++ "," ++
        (if true then "required" else "optional")) =
      some { dataType := .email, required := true, options := Option.none } := by
  have hp : parseInputAttribute "email,required" =
      some { dataType := .email, required := true, options := Option.none } := by decide
  exact ⟨hp, parseInput_roundTrip "email,required" _ hp⟩

/-- C8 counterexample: the claim's "the first caller's promise never
settles thereafter" fails on the code.  Two back-to-back async `execute`
calls on `e1`: the second silently replaces the pending entry (bookkeeping
`⟨1, 1⟩`), as claimed — but the first call's timer (id 0) was never
cancelled, and firing it settles the first caller's promise (call 0) with
the timeout result. -/
theorem execute_async_overwrite_counterexample :
    (execute jsonParseNone demoAsyncReg demoAsyncDoc ExecState.init "e1" clickAction
        Option.none).2.2 = asyncArmedState ExecState.init "e1" Option.none ∧
    (execute jsonParseNone demoAsyncReg demoDoc1
        (asyncArmedState ExecState.init "e1" Option.none) "e1" clickAction
        Option.none).2.2 = demoOverwriteState ∧
    lookupP demoOverwriteState.pendingOperations "e1" =
      some { resolveCallId := 1, timeoutId := 1 } ∧
    lookupP (fireTimer demoOverwriteState
        { timerId := 0, elemId := "e1", callId := 0, timeoutMs := 30000 }).settled 0 =
      some { success := true, status := .timeout
             message := some "Operation timed out after 30000ms" } := by
  decide

/-- C8 (amended): a second async-tracked `execute` on an identifier with an
unsettled call silently replaces the pending-operation entry with the
second call's bookkeeping, and no completion signal ever settles the first
caller's promise — but the first call's timeout timer is not cancelled: it
stays armed and, when it fires, the first caller's promise settles with the
timeout result. -/
theorem execute_async_overwrite {jsonParse : String → Option JsonValue}
    {reg : RegistryMap} {doc doc1 doc2 : Document} {st st1 st2 : ExecState}
    {id : String} {action1 action2 : InteractionAction} {opts1 opts2 : Option Nat}
    {c1 c2 : Nat}
    (hexec1 : execute jsonParse reg doc st id action1 opts1 = (.suspended c1, doc1, st1))
    (hexec2 : execute jsonParse reg doc1 st1 id action2 opts2 = (.suspended c2, doc2, st2))
    (hS : ∀ p ∈ st.settled, p.1 < st.nextCallId) :
    lookupP st2.pendingOperations id =
      some { resolveCallId := c2, timeoutId := st1.nextTimerId } ∧
    (∀ payload, lookupP (complete st2 id payload).settled c1 = Option.none) ∧
    armedTimer st id opts1 ∈ st2.timers ∧
    lookupP (fireTimer st2 (armedTimer st id opts1)).settled c1 =
      some { success := true, status := .timeout
             message := some ("Operation timed out after " ++
               natToString (opts1.getD DEFAULT_TIMEOUT_MS) ++ "ms") } := by
  obtain ⟨rfl, rfl⟩ := execute_suspended_shape hexec1
  obtain ⟨rfl, rfl⟩ := execute_suspended_shape hexec2
  have hlk : lookupP
      (asyncArmedState (asyncArmedState st id opts1) id opts2).pendingOperations id =
      some { resolveCallId := (asyncArmedState st id opts1).nextCallId
             timeoutId := (asyncArmedState st id opts1).nextTimerId } :=
    lookupP_insertP_self _ _ _
  have hmem1 : armedTimer st id opts1 ∈
      (asyncArmedState (asyncArmedState st id opts1) id opts2).timers :=
    List.mem_cons_of_mem _ (List.mem_cons_self _ _)
  refine ⟨hlk, ?_, hmem1, ?_⟩
  · intro payload
    unfold complete
    rw [hlk]
    dsimp only
    rw [lookupP, if_neg (by
      show ¬((asyncArmedState st id opts1).nextCallId = st.nextCallId)
      show ¬(st.nextCallId + 1 = st.nextCallId)
      omega)]
    exact lookupP_eq_none_of_ne fun p hp => Nat.ne_of_lt (hS p hp)
  · unfold fireTimer
    rw [if_pos hmem1]
    dsimp only
    rw [lookupP]
    rw [if_pos (show (armedTimer st id opts1).callId = st.nextCallId from rfl)]
    rfl

/-- Witness for the amended C8, on the concrete two-call trace. -/
theorem execute_async_overwrite_witness :
    lookupP demoOverwriteState.pendingOperations "e1" =
      some { resolveCallId := 1, timeoutId := 1 } ∧
    lookupP (complete demoOverwriteState "e1" { status := .completed }).settled 0 =
      Option.none ∧
    armedTimer ExecState.init "e1" Option.none ∈ demoOverwriteState.timers ∧
    lookupP (fireTimer demoOverwriteState
        (armedTimer ExecState.init "e1" Option.none)).settled 0 =
      some { success := true, status := .timeout
             message := some "Operation timed out after 30000ms" } := by
  have h := execute_async_overwrite
    (show execute jsonParseNone demoAsyncReg demoAsyncDoc ExecState.init "e1"
        clickAction Option.none =
      (.suspended 0, demoDoc1, asyncArmedState ExecState.init "e1" Option.none) by decide)
    (show execute jsonParseNone demoAsyncReg demoDoc1
        (asyncArmedState ExecState.init "e1" Option.none) "e1" clickAction Option.none =
      (.suspended 1, demoDoc2, demoOverwriteState) by decide)
    (by decide)
  exact ⟨h.1, h.2.1 _, h.2.2.1, h.2.2.2⟩

/-- C9: over every sequence of legacy-tracker calls, `start` hands out the
identifiers `op-1, op-2, …` — the counter value climbing by exactly one per
`start`, never reset — `clear` empties the store while leaving the counter
unchanged, and the identifiers of one trace never collide (`Nodup`), even
across clears. -/
theorem tracker_ids_sequential (evs : List TrackerEvent) :
    allocatedIds OperationTracker.init evs = opIdsFrom 0 (numStarts evs) ∧
    (∀ tr : OperationTracker, (OperationTracker.clear tr).operations = [] ∧
      (OperationTracker.clear tr).idCounter = tr.idCounter) ∧
    (allocatedIds OperationTracker.init evs).Nodup := by
  refine ⟨allocatedIds_eq evs OperationTracker.init, fun tr => ⟨rfl, rfl⟩, ?_⟩
  rw [allocatedIds_eq evs OperationTracker.init]
  exact opIdsFrom_nodup _ _

/-- Witness for C9: a start/start/clear/start trace allocates `op-1`,
`op-2`, `op-3` with no collision, and clearing keeps the counter. -/
theorem tracker_ids_sequential_witness :
    allocatedIds OperationTracker.init demoTrackerEvents = ["op-1", "op-2", "op-3"] ∧
    (OperationTracker.clear ⟨[], 7⟩).operations = [] ∧
    (OperationTracker.clear ⟨[], 7⟩).idCounter = 7 ∧
    (allocatedIds OperationTracker.init demoTrackerEvents).Nodup := by
  have h := tracker_ids_sequential demoTrackerEvents
  refine ⟨?_, (h.2.1 ⟨[], 7⟩).1, (h.2.1 ⟨[], 7⟩).2, h.2.2⟩
  rw [h.1]
  decide

/-- C10: every element ever stored in the registry — by the initial scan,
an added-node mutation, a removal, or an attribute-change re-parse — holds
exactly one action descriptor, derived from the node's single declared
action kind. -/
theorem registry_actions_singleton (jsonParse : String → Option JsonValue)
    (cssEscape : String → String) (evs : List RegEvent) (id : String)
    (el : SIDElement)
    (h : (id, el) ∈ runRegEvents jsonParse cssEscape [] evs) :
    el.actions.length = 1 := by
  have main : ∀ (evs : List RegEvent) (st : RegistryMap),
      (∀ p ∈ st, (p.2 : SIDElement).actions.length = 1) →
      ∀ p ∈ runRegEvents jsonParse cssEscape st evs, (p.2).actions.length = 1 := by
    intro evs
    induction evs with
    | nil => intro st hst; exact hst
    | cons ev evs ih =>
      intro st hst
      exact ih _ (applyRegEvent_inv hst)
  exact main evs [] (by simp) (id, el) h

/-- Witness for C10: scanning `demoAsyncDoc` stores `e1` with exactly one
action descriptor. -/
theorem registry_actions_singleton_witness :
    ("e1", demoScannedElement) ∈
      runRegEvents jsonParseNone cssEscapeId [] [RegEvent.scan demoAsyncDoc] ∧
    demoScannedElement.actions.length = 1 := by
  have hmem : ("e1", demoScannedElement) ∈
      runRegEvents jsonParseNone cssEscapeId [] [RegEvent.scan demoAsyncDoc] := by
    decide
  exact ⟨hmem, registry_actions_singleton jsonParseNone cssEscapeId _ _ _ hmem⟩

end SID
